import Mathlib

/-!
Verification development for the uk-property-valuation pipeline.

The definitions below are a shallow embedding of the Python source:
text is `List Char`, Python dict payloads are a small JSON value type
`JVal`, Python exceptions are `Except` values, and the external
`json.loads` decoder is passed in as a function parameter
(`List Char → Except String JVal`), since it is an external library the
source calls.  Wall-clock values (timestamps, dates) are omitted from the
records; thread interleaving is modelled at the granularity of the
source's contiguous assignment blocks.
-/

/-- JSON-like payload values, modelling the Python dicts/lists the agents
pass around. -/
inductive JVal where
  | jnull : JVal
  | jbool : Bool → JVal
  | jnum : Int → JVal
  | jstr : List Char → JVal
  | jarr : List JVal → JVal
  | jobj : List (String × JVal) → JVal

/-- Index of the first occurrence of `c`, mirroring Python `str.find`
(restricted to the case where the character occurs; call sites in the
source guard with `c in s`). -/
def pyFind (c : Char) : List Char → Option Nat
  | [] => none
  | x :: xs => if x = c then some 0 else (pyFind c xs).map (· + 1)

/-- Index of the last occurrence of `c`, mirroring Python `str.rfind`
(restricted to the case where the character occurs). -/
def pyRfind (c : Char) : List Char → Option Nat
  | [] => none
  | x :: xs =>
    match pyRfind c xs with
    | some j => some (j + 1)
    | none => if x = c then some 0 else none

/-- Python slice `s[a:b]` for non-negative bounds. -/
def pySlice (a b : Nat) (l : List Char) : List Char :=
  (l.take b).drop a

/-- The source's embedded-JSON extraction
`msg[msg.find('\x7b') : msg.rfind('\x7d') + 1]`, shared verbatim by
`ResearchAgent._parse_address`, `ResearchAgent._get_property_details` and
`EvaluationAgent._calculate_valuation`. -/
def extractBraces (msg : List Char) : List Char :=
  match pyFind '{' msg, pyRfind '}' msg with
  | some i, some j => pySlice i (j + 1) msg
  | _, _ => []

/-- The guard `'\x7b' in assistant_message and '\x7d' in assistant_message`. -/
def hasBracePair (msg : List Char) : Bool :=
  (pyFind '{' msg).isSome && (pyRfind '}' msg).isSome

/-- `[A-Z]` (optionally also `[a-z]` when the regex is compiled with
`re.IGNORECASE`). -/
def pcLetter (ci : Bool) (c : Char) : Bool :=
  ('A' ≤ c && c ≤ 'Z') || (ci && 'a' ≤ c && c ≤ 'z')

/-- `[0-9]`. -/
def pcDigit (c : Char) : Bool :=
  '0' ≤ c && c ≤ '9'

/-- `[A-Z0-9]` (case-insensitive variant when `ci`). -/
def pcAlnum (ci : Bool) (c : Char) : Bool :=
  pcLetter ci c || pcDigit c

/-- Match a list of character predicates against a prefix of `l`,
returning the consumed characters. -/
def matchShape : List (Char → Bool) → List Char → Option (List Char)
  | [], _ => some []
  | _ :: _, [] => none
  | p :: ps, c :: cs =>
    if p c then (matchShape ps cs).map (c :: ·) else none

/-- One fully expanded alternative of the UK postcode regex
`[A-Z]\x7b1,2\x7d[0-9][A-Z0-9]? ?[0-9][A-Z]\x7b2\x7d`: `nl` letters,
a digit, `na` optional-alnum characters, `ns` literal spaces, a digit and
two letters. -/
def pcShape (ci : Bool) (nl na ns : Nat) : List (Char → Bool) :=
  List.replicate nl (pcLetter ci) ++ [pcDigit] ++
    List.replicate na (pcAlnum ci) ++ List.replicate ns (· == ' ') ++
    [pcDigit, pcLetter ci, pcLetter ci]

/-- Match the UK postcode regex anchored at the start of `l`, trying the
expanded alternatives in the backtracking order of the Python `re`
engine (greedy quantifiers: longer option first, rightmost quantifier
backtracks first). -/
def pcMatchAt (ci : Bool) (l : List Char) : Option (List Char) :=
  (matchShape (pcShape ci 2 1 1) l).orElse fun _ =>
  (matchShape (pcShape ci 2 1 0) l).orElse fun _ =>
  (matchShape (pcShape ci 2 0 1) l).orElse fun _ =>
  (matchShape (pcShape ci 2 0 0) l).orElse fun _ =>
  (matchShape (pcShape ci 1 1 1) l).orElse fun _ =>
  (matchShape (pcShape ci 1 1 0) l).orElse fun _ =>
  (matchShape (pcShape ci 1 0 1) l).orElse fun _ =>
  matchShape (pcShape ci 1 0 0) l

/-- `re.search` for the UK postcode pattern: leftmost match wins,
returning `group(0)`. -/
def pcSearch (ci : Bool) : List Char → Option (List Char)
  | [] => none
  | c :: cs =>
    match pcMatchAt ci (c :: cs) with
    | some m => some m
    | none => pcSearch ci cs

/-- Outcome of the `/validate-address` endpoint (`validate_address` in
`app_improved.py`): the three distinct JSON responses it can build. -/
inductive ValidationResult where
  | invalid (message : String)
  | validWithWarning (warning : String) (formatted : List Char)
  | valid (formatted : List Char)
deriving DecidableEq

/-- `validate_address` from `app_improved.py`: reject when the address is
falsy or shorter than 10 characters; otherwise search for a UK postcode
pattern (case-insensitively) and attach a warning when none is found. -/
def validateAddress (address : List Char) : ValidationResult :=
  if address.length < 10 then
    .invalid "Please enter a complete UK address"
  else
    match pcSearch true address with
    | none => .validWithWarning "Address may not contain a valid UK postcode" address
    | some _ => .valid address

/-- Whether `validate_address` returned `valid: False`. -/
def ValidationResult.isInvalid : ValidationResult → Bool
  | .invalid _ => true
  | _ => false

/-- Whether `validate_address` attached a `warning` field. -/
def ValidationResult.hasWarning : ValidationResult → Bool
  | .validWithWarning _ _ => true
  | _ => false

/-- The no-JSON-found default of `ResearchAgent._parse_address`: an
empty component dict whose postcode is backfilled from the *address* by a
case-sensitive regex search. -/
def addressDefaultNoJson (address : List Char) : JVal :=
  .jobj [("building", .jstr []), ("street", .jstr []), ("city", .jstr []),
    ("county", .jstr []),
    ("postcode", .jstr ((pcSearch false address).getD []))]

/-- The exception-handler fallback of `ResearchAgent._parse_address`. -/
def addressParseFallback (address : List Char) : JVal :=
  .jobj [("full_address", .jstr address), ("postcode", .jstr []),
    ("city", .jstr []), ("street", .jstr [])]

/-- `ResearchAgent._parse_address`, from the point where the assistant
message has been received: extract the brace-delimited region and decode
it (`decode` stands for `json.loads`, returning `Except` instead of
raising); fall back to the deterministic defaults on failure. -/
def parseAddress (decode : List Char → Except String JVal)
    (address msg : List Char) : JVal :=
  if hasBracePair msg then
    match decode (extractBraces msg) with
    | .ok v => v
    | .error _ => addressParseFallback address
  else
    addressDefaultNoJson address

/-- The no-JSON-found default dict of
`ResearchAgent._get_property_details`. -/
def propertyDetailsDefault : JVal :=
  .jobj [("property_type", .jstr "Flat/Maisonette".toList),
    ("tenure", .jstr "Leasehold".toList),
    ("year_built", .jstr "1980".toList),
    ("floor_area", .jstr "700 sqft".toList),
    ("bedrooms", .jnum 2), ("bathrooms", .jnum 1),
    ("epc_rating", .jstr "C".toList),
    ("council_tax_band", .jstr "D".toList),
    ("last_sold_price", .jstr "£420,000".toList),
    ("last_sold_date", .jstr "June 2022".toList),
    ("current_use_class", .jstr "C3 (Residential)".toList)]

/-- The exception-handler fallback dict of
`ResearchAgent._get_property_details`. -/
def propertyDetailsFallback : JVal :=
  .jobj [("property_type", .jstr "Unknown".toList),
    ("bedrooms", .jnum 0), ("bathrooms", .jnum 0),
    ("floor_area", .jstr "Unknown".toList),
    ("current_use_class", .jstr "Unknown".toList)]

/-- `ResearchAgent._get_property_details`, from the point where the
assistant message has been received. -/
def parsePropertyDetails (decode : List Char → Except String JVal)
    (msg : List Char) : JVal :=
  if hasBracePair msg then
    match decode (extractBraces msg) with
    | .ok v => v
    | .error _ => propertyDetailsFallback
  else
    propertyDetailsDefault


/-- Python `str.lower()` restricted to ASCII, as used by
`handle_agent_error`'s rate-limit check. -/
def toLowerChars (s : String) : List Char :=
  s.toList.map Char.toLower

/-- Whether `pat` occurs at the start of `l`. -/
def listStartsWith : List Char → List Char → Bool
  | _, [] => true
  | [], _ :: _ => false
  | x :: xs, y :: ys => x == y && listStartsWith xs ys

/-- Python's `pat in l` substring test. -/
def listContainsSub (pat : List Char) : List Char → Bool
  | [] => listStartsWith [] pat
  | x :: xs => listStartsWith (x :: xs) pat || listContainsSub pat xs

/-- The `error_details` dict written on failures
(`traceback` is omitted from the embedding). -/
structure ErrDetails where
  errorMsg : String
  agent : Option String
deriving DecidableEq

/-- One job record of the global `reports` dict in `app_improved.py`,
with the fields the endpoints read and write (`timestamp`/`date`
wall-clock fields omitted). -/
structure JobRec where
  address : String
  status : String
  progress : Nat
  message : String
  adResearch : String
  adEvaluation : String
  adAccessor : String
  adReport : String
  adErrorAgent : Option String
  adErrorMessage : Option String
  html : Option String
  content : Option JVal
  data : Option JVal
  errorDetails : Option ErrDetails
  canRetry : Bool
  retryAfter : Option Nat

/-- The fresh record `generate_report` stores before spawning the
background thread. -/
def initialJob (address : String) : JobRec where
  address := address
  status := "processing"
  progress := 0
  message := "Starting research..."
  adResearch := "Initializing..."
  adEvaluation := "Waiting..."
  adAccessor := "Waiting..."
  adReport := "Waiting..."
  adErrorAgent := none
  adErrorMessage := none
  html := none
  content := none
  data := none
  errorDetails := none
  canRetry := false
  retryAfter := none

/-- `handle_agent_error` from `app_improved.py`: flip the record to
`error` status, special-case rate-limit messages as retryable, and record
the failing agent. -/
def handleAgentError (agentName errorMessage : String) (s : JobRec) : JobRec :=
  let rl := listContainsSub "rate limit".toList (toLowerChars errorMessage)
  { s with
    status := "error"
    message :=
      if rl then "OpenAI API rate limit reached. Please try again later."
      else "Error in " ++ agentName ++ " agent: " ++ errorMessage
    canRetry := if rl then true else s.canRetry
    retryAfter := if rl then some 60 else s.retryAfter
    errorDetails := some ⟨errorMessage, some agentName⟩
    adErrorAgent := some agentName
    adErrorMessage := some errorMessage }

/-- The payload `ReportGenerationAgent.process` always returns
(`report_html` plus the structured `report_content`). -/
structure ReportResult where
  report_html : String
  report_content : JVal

/-- The four registered agents' `process` methods, as functions from the
inputs `process_report` feeds them; a Python exception is an `.error`
carrying `str(e)`. -/
structure AgentFns where
  research : String → Except String JVal
  evaluation : JVal → Except String JVal
  accessor : String → JVal → JVal → Except String JVal
  reportGen : JVal → Except String ReportResult

/-- The agent ids in the order `process_report` invokes them. -/
def stageNames : List String :=
  ["research", "evaluation", "accessor", "report_generator"]

/-- Result of one background run: the sequence of states the job record
passes through (one entry per contiguous assignment block of
`process_report`), plus the agents actually invoked, in order. -/
structure RunResult where
  trace : List JobRec
  executed : List String

/-- Record state at the start of the research block. -/
def researchingState (s : JobRec) : JobRec :=
  { s with
    status := "researching"
    progress := 10
    message := "Researching property data..."
    adResearch := "Gathering property data..." }

/-- Record state at the start of the evaluation block. -/
def evaluatingState (s : JobRec) : JobRec :=
  { s with
    adResearch := "Research complete"
    status := "evaluating"
    progress := 30
    message := "Evaluating property data..."
    adEvaluation := "Analyzing property data..." }

/-- Record state at the start of the accessor block. -/
def reviewingState (s : JobRec) : JobRec :=
  { s with
    adEvaluation := "Evaluation complete"
    status := "reviewing"
    progress := 50
    message := "Reviewing and approving data..."
    adAccessor := "Reviewing data..." }

/-- Record state at the start of the report-generation block. -/
def generatingState (s : JobRec) : JobRec :=
  { s with
    adAccessor := "Review complete"
    status := "generating"
    progress := 70
    message := "Generating report..."
    adReport := "Creating report..." }

/-- Terminal record of a successful run. -/
def completeState (approvedData : JVal) (rr : ReportResult) (s : JobRec) : JobRec :=
  { s with
    adReport := "Report complete"
    status := "complete"
    progress := 100
    message := "Report generation complete"
    html := some rr.report_html
    content := some rr.report_content
    data := some approvedData }

/-- `process_report` from `app_improved.py`, as the sequence of job-record
states it writes (the trace starts at the record `generate_report`
stored) together with the list of agents invoked.  Each agent call is
wrapped in try/except delegating to `handle_agent_error` and returning. -/
def processReport (fns : AgentFns) (address : String) : RunResult :=
  let s0 := initialJob address
  let s1 := researchingState s0
  match fns.research address with
  | .error e => ⟨[s0, s1, handleAgentError "research" e s1], ["research"]⟩
  | .ok propertyData =>
    let s2 := evaluatingState s1
    match fns.evaluation propertyData with
    | .error e =>
      ⟨[s0, s1, s2, handleAgentError "evaluation" e s2],
        ["research", "evaluation"]⟩
    | .ok evaluationResults =>
      let s3 := reviewingState s2
      match fns.accessor address propertyData evaluationResults with
      | .error e =>
        ⟨[s0, s1, s2, s3, handleAgentError "accessor" e s3],
          ["research", "evaluation", "accessor"]⟩
      | .ok approvedData =>
        let s4 := generatingState s3
        match fns.reportGen approvedData with
        | .error e =>
          ⟨[s0, s1, s2, s3, s4, handleAgentError "report_generator" e s4],
            stageNames⟩
        | .ok rr =>
          ⟨[s0, s1, s2, s3, s4, completeState approvedData rr s4],
            stageNames⟩

/-- Whether all four agent calls of a run succeed. -/
def pipelineOk (fns : AgentFns) (address : String) : Bool :=
  match fns.research address with
  | .error _ => false
  | .ok propertyData =>
    match fns.evaluation propertyData with
    | .error _ => false
    | .ok evaluationResults =>
      match fns.accessor address propertyData evaluationResults with
      | .error _ => false
      | .ok approvedData =>
        match fns.reportGen approvedData with
        | .error _ => false
        | .ok _ => true

/-- A record whose status the state machine treats as terminal. -/
def isTerminal (s : JobRec) : Bool :=
  s.status == "complete" || s.status == "error"

/-- Whether a record carries a stage result payload. -/
def hasResult (s : JobRec) : Bool :=
  s.html.isSome || s.content.isSome || s.data.isSome

/-- The JSON body `/report-status/<id>` builds from a job record
(`report_status` in `app_improved.py`); polling is a pure read. -/
structure StatusView where
  status : String
  progress : Nat
  message : String
  complete : Bool
  adResearch : String
  adEvaluation : String
  adAccessor : String
  adReport : String
  errorDetails : Option ErrDetails
  canRetry : Bool
  retryAfter : Nat

/-- `report_status` for a known id: read-only projection of the record. -/
def reportStatusView (s : JobRec) : StatusView where
  status := s.status
  progress := s.progress
  message := s.message
  complete := s.status == "complete"
  adResearch := s.adResearch
  adEvaluation := s.adEvaluation
  adAccessor := s.adAccessor
  adReport := s.adReport
  errorDetails := s.errorDetails
  canRetry := s.canRetry
  retryAfter := s.retryAfter.getD 0

/-- The global `reports` dict, as an association list keyed by report id. -/
def JobStore := List (String × JobRec)

/-- Lookup in the `reports` dict (`report_id in reports` /
`reports[report_id]`). -/
def storeGet (store : JobStore) (reportId : String) : Option JobRec :=
  match store with
  | [] => none
  | (k, v) :: rest => if k = reportId then some v else storeGet rest reportId

/-- `reports[report_id] = rec`: replace an existing entry or add one. -/
def storeSet (store : JobStore) (reportId : String) (r : JobRec) : JobStore :=
  match store with
  | [] => [(reportId, r)]
  | (k, v) :: rest =>
    if k = reportId then (reportId, r) :: rest
    else (k, v) :: storeSet rest reportId r

/-- The three JSON responses of `/generate-report`. -/
inductive GenOutcome where
  | missingAddress
  | missingApiKey
  | started (reportId : String)
deriving DecidableEq

/-- `generate_report` from `app_improved.py`: reject a falsy address or a
missing API key synchronously; otherwise store the initial record under a
fresh id (the generated UUID is the `newId` parameter) and return the id
without running the pipeline. -/
def generateReport (apiKeyConfigured : Bool) (store : JobStore)
    (newId address : String) : GenOutcome × JobStore :=
  if address = "" then (.missingAddress, store)
  else if !apiKeyConfigured then (.missingApiKey, store)
  else (.started newId, storeSet store newId (initialJob address))

/-- The three JSON responses of `/retry-report/<id>`. -/
inductive RetryOutcome where
  | notFound
  | noAddress
  | restarted (reportId : String)
deriving DecidableEq

/-- The fresh record `retry_report` stores before re-spawning the
background thread. -/
def retryInitialJob (address : String) : JobRec :=
  { initialJob address with message := "Restarting report generation..." }

/-- `retry_report` from `app_improved.py`: require only that the id is
known and the stored record has a non-empty address, then overwrite the
record with a fresh one and restart the pipeline.  The handler performs
no check of the job's current status. -/
def retryReport (store : JobStore) (reportId : String) :
    RetryOutcome × JobStore :=
  match storeGet store reportId with
  | none => (.notFound, store)
  | some r =>
    if r.address = "" then (.noAddress, store)
    else (.restarted reportId, storeSet store reportId (retryInitialJob r.address))

/-- Outcome of one attempted OpenAI API call inside the retry loop of
`BaseAgent.call_openai_api` (`base_agent_improved.py`): a successful
response, a `RateLimitError`, another `APIError`, or any other
exception. -/
inductive ApiOutcome where
  | success (body : String)
  | rateLimited
  | apiError (msg : String)
  | other (msg : String)

/-- The errors `call_openai_api` (`base_agent_improved.py`) can raise. -/
inductive CallErr where
  | clientNotInit
  | rateExhausted
  | apiExhausted (msg : String)
  | unexpected (msg : String)
deriving DecidableEq

/-- Observable result of one `call_openai_api` invocation: the returned
value or raised error, the number of underlying API attempts, and the
number of backoff sleeps performed. -/
structure CallOut where
  result : Except CallErr String
  attempts : Nat
  sleeps : Nat

/-- The `while retry_count <= max_retries` loop of
`BaseAgent.call_openai_api` (`base_agent_improved.py`).  `idx` numbers the
attempts and `remaining = max_retries - retry_count` counts the retries
still allowed: on `RateLimitError`/`APIError` the source increments
`retry_count`, raises once `retry_count > max_retries` (i.e. when
`remaining` was `0`), and otherwise sleeps and retries; any other
exception is re-raised at once; a success returns at once. -/
def callLoop (outcomes : Nat → ApiOutcome) : Nat → Nat → CallOut
  | idx, remaining =>
    match outcomes idx, remaining with
    | .success b, _ => ⟨.ok b, 1, 0⟩
    | .other m, _ => ⟨.error (.unexpected m), 1, 0⟩
    | .rateLimited, 0 => ⟨.error .rateExhausted, 1, 0⟩
    | .rateLimited, r + 1 =>
      let rest := callLoop outcomes (idx + 1) r
      ⟨rest.result, rest.attempts + 1, rest.sleeps + 1⟩
    | .apiError m, 0 => ⟨.error (.apiExhausted m), 1, 0⟩
    | .apiError _, r + 1 =>
      let rest := callLoop outcomes (idx + 1) r
      ⟨rest.result, rest.attempts + 1, rest.sleeps + 1⟩

/-- `BaseAgent.call_openai_api` from `base_agent_improved.py`:
fail fast with a `ValueError` when no client is initialized (no API
attempt, no sleep), otherwise run the retry loop with `max_retries`
retries allowed. -/
def callOpenaiApi (clientOk : Bool) (outcomes : Nat → ApiOutcome)
    (maxRetries : Nat) : CallOut :=
  if clientOk then callLoop outcomes 0 maxRetries
  else ⟨.error .clientNotInit, 0, 0⟩

/-- Outcome of one `requests.post` inside the legacy
`BaseAgent.call_openai_api` (`base_agent.py`): an HTTP 200 body, an HTTP
429, another HTTP error status, or a raised exception. -/
inductive LegacyOutcome where
  | http200 (body : String)
  | http429
  | httpOther (msg : String)
  | exn (msg : String)

/-- The errors the legacy `call_openai_api` can raise. -/
inductive LegacyErr where
  | authMissing
  | exhausted
  | raised (msg : String)
deriving DecidableEq

/-- Observable result of one legacy `call_openai_api` invocation. -/
structure LegacyOut where
  result : Except LegacyErr String
  attempts : Nat
  sleeps : Nat

/-- The `for attempt in range(self.max_retries)` loop of the legacy
`call_openai_api` (`base_agent.py`): HTTP 200 returns; HTTP 429 sleeps
and continues; any other HTTP status or exception is retried with a
sleep unless this was the last iteration (`attempt < max_retries - 1`),
in which case it is re-raised; a completed loop raises the final
"Failed to call OpenAI API" exception. -/
def legacyLoop (outcomes : Nat → LegacyOutcome) : Nat → Nat → LegacyOut
  | _, 0 => ⟨.error .exhausted, 0, 0⟩
  | idx, r + 1 =>
    match outcomes idx with
    | .http200 b => ⟨.ok b, 1, 0⟩
    | .http429 =>
      let rest := legacyLoop outcomes (idx + 1) r
      ⟨rest.result, rest.attempts + 1, rest.sleeps + 1⟩
    | .httpOther m =>
      if r = 0 then ⟨.error (.raised m), 1, 0⟩
      else
        let rest := legacyLoop outcomes (idx + 1) r
        ⟨rest.result, rest.attempts + 1, rest.sleeps + 1⟩
    | .exn m =>
      if r = 0 then ⟨.error (.raised m), 1, 0⟩
      else
        let rest := legacyLoop outcomes (idx + 1) r
        ⟨rest.result, rest.attempts + 1, rest.sleeps + 1⟩

/-- The legacy `BaseAgent.call_openai_api` from `base_agent.py`
(the variant the four concrete agents actually inherit): raise
`ValueError` before any network I/O when no API key is configured,
otherwise run at most `max_retries` attempts. -/
def legacyCallOpenaiApi (apiKeyConfigured : Bool)
    (outcomes : Nat → LegacyOutcome) (maxRetries : Nat) : LegacyOut :=
  if apiKeyConfigured then legacyLoop outcomes 0 maxRetries
  else ⟨.error .authMissing, 0, 0⟩

/-- Agents that all succeed, for concrete instantiations. -/
def demoFnsOk : AgentFns where
  research := fun _ => .ok (JVal.jobj [("address", .jstr "10 Downing Street".toList)])
  evaluation := fun _ => .ok (JVal.jobj [("valuation", .jnum 500000)])
  accessor := fun _ _ _ => .ok (JVal.jobj [("approved", .jbool true)])
  reportGen := fun _ => .ok ⟨"<html></html>", JVal.jobj []⟩

/-- Agents whose research stage raises, for concrete instantiations. -/
def demoFnsFail : AgentFns where
  research := fun _ => .error "OpenAI API rate limit reached"
  evaluation := fun _ => .ok JVal.jnull
  accessor := fun _ _ _ => .ok JVal.jnull
  reportGen := fun _ => .ok ⟨"", JVal.jnull⟩

/-- A job record that has already completed, for concrete instantiations. -/
def demoCompletedJob : JobRec :=
  { initialJob "221B Baker Street, London NW1 6XE" with
    status := "complete"
    progress := 100 }

/-- A store holding one completed job. -/
def demoStore : JobStore := [("r1", demoCompletedJob)]

/-- A job record that has already failed, for concrete instantiations. -/
def demoErrorJob : JobRec :=
  handleAgentError "research" "boom" (researchingState (initialJob "1 High Street, Exampletown EX1 2AB"))

/-- A store holding one failed job. -/
def demoErrorStore : JobStore := [("e1", demoErrorJob)]

/-- Agents whose research stage raises a plain (non-rate-limit)
exception, for concrete instantiations. -/
def demoFnsBoom : AgentFns where
  research := fun _ => .error "boom"
  evaluation := fun _ => .ok JVal.jnull
  accessor := fun _ _ _ => .ok JVal.jnull
  reportGen := fun _ => .ok ⟨"", JVal.jnull⟩

theorem pyFind_spec {c : Char} {l : List Char} {i : Nat}
    (h : pyFind c l = some i) :
    l.get? i = some c ∧ ∀ k, k < i → l.get? k ≠ some c := by
  induction l generalizing i with
  | nil => simp [pyFind] at h
  | cons x xs ih =>
    simp only [pyFind] at h
    split at h
    case isTrue hx =>
      obtain rfl : (0 : Nat) = i := by injection h
      simp [hx]
    case isFalse hx =>
      rw [Option.map_eq_some'] at h
      obtain ⟨j, hj, rfl⟩ := h
      obtain ⟨ihg, ihm⟩ := ih hj
      refine ⟨by simpa using ihg, ?_⟩
      intro k hk
      cases k with
      | zero => simp [hx]
      | succ k' =>
        simpa using ihm k' (by omega)

theorem pyRfind_none {c : Char} {l : List Char} (h : pyRfind c l = none) :
    ∀ k, l.get? k ≠ some c := by
  induction l with
  | nil => simp
  | cons x xs ih =>
    simp only [pyRfind] at h
    cases hxs : pyRfind c xs with
    | some j => simp only [hxs] at h; exact absurd h (by simp)
    | none =>
      simp only [hxs] at h
      split at h
      next hx => simp at h
      next hx =>
        intro k
        cases k with
        | zero => simp [hx]
        | succ k' => simpa using ih hxs k'

theorem pyRfind_spec {c : Char} {l : List Char} {j : Nat}
    (h : pyRfind c l = some j) :
    l.get? j = some c ∧ ∀ k, j < k → l.get? k ≠ some c := by
  induction l generalizing j with
  | nil => simp [pyRfind] at h
  | cons x xs ih =>
    simp only [pyRfind] at h
    cases hxs : pyRfind c xs with
    | some j' =>
      simp only [hxs] at h
      obtain rfl : j' + 1 = j := by injection h
      obtain ⟨ihg, ihm⟩ := ih hxs
      refine ⟨by simpa using ihg, ?_⟩
      intro k hk
      cases k with
      | zero => omega
      | succ k' => simpa using ihm k' (by omega)
    | none =>
      simp only [hxs] at h
      split at h
      next hx =>
        obtain rfl : (0 : Nat) = j := by injection h
        refine ⟨by simp [hx], ?_⟩
        intro k hk
        cases k with
        | zero => omega
        | succ k' => simpa using pyRfind_none hxs k'
      next hx => simp at h

/-- C10: an address is judged invalid by `validate_address` exactly when
it is empty or shorter than 10 characters; an address of length at least
10 with no UK postcode pattern is still judged valid, with a warning
attached, and is never rejected. -/
theorem address_validation_length_and_postcode_warning (address : List Char) :
    ((validateAddress address).isInvalid = true ↔
      (address = [] ∨ address.length < 10)) ∧
    (10 ≤ address.length → pcSearch true address = none →
      validateAddress address =
        .validWithWarning "Address may not contain a valid UK postcode" address ∧
      (validateAddress address).hasWarning = true ∧
      (validateAddress address).isInvalid = false) := by
  constructor
  · unfold validateAddress
    split
    case isTrue hlen =>
      simp [ValidationResult.isInvalid]
      omega
    case isFalse hlen =>
      cases hs : pcSearch true address with
      | none =>
        simp [ValidationResult.isInvalid]
        constructor
        · rintro rfl; simp at hlen
        · omega
      | some m =>
        simp [ValidationResult.isInvalid]
        constructor
        · rintro rfl; simp at hlen
        · omega
  · intro hlen hs
    unfold validateAddress
    rw [if_neg (by omega), hs]
    exact ⟨rfl, rfl, rfl⟩

/-- C10 witness: a concrete 18-character address without a postcode is
accepted with a warning. -/
theorem address_validation_witness :
    10 ≤ ("Ten Long Road Name".toList).length ∧
    validateAddress "Ten Long Road Name".toList =
      .validWithWarning "Address may not contain a valid UK postcode"
        "Ten Long Road Name".toList := by
  refine ⟨by decide, ?_⟩
  exact ((address_validation_length_and_postcode_warning
    "Ten Long Road Name".toList).2 (by decide) (by decide)).1

/-- C1: the response-parsing step never raises and always returns a
payload — for every assistant message and every behaviour of the JSON
decoder, `_parse_address` and `_get_property_details` return the decoded
value on success and otherwise the stage's deterministic default payload
(one default for "no delimiter pair found", one for "structured decoding
failed"). -/
theorem parse_total_with_deterministic_fallback
    (decode : List Char → Except String JVal) (address msg : List Char) :
    (hasBracePair msg = false →
      parseAddress decode address msg = addressDefaultNoJson address ∧
      parsePropertyDetails decode msg = propertyDetailsDefault) ∧
    (∀ e, hasBracePair msg = true → decode (extractBraces msg) = .error e →
      parseAddress decode address msg = addressParseFallback address ∧
      parsePropertyDetails decode msg = propertyDetailsFallback) ∧
    (∀ v, hasBracePair msg = true → decode (extractBraces msg) = .ok v →
      parseAddress decode address msg = v ∧
      parsePropertyDetails decode msg = v) := by
  refine ⟨?_, ?_, ?_⟩
  · intro hb
    unfold parseAddress parsePropertyDetails
    rw [hb]
    simp
  · intro e hb hd
    unfold parseAddress parsePropertyDetails
    rw [hb, hd]
    simp
  · intro v hb hd
    unfold parseAddress parsePropertyDetails
    rw [hb, hd]
    simp

/-- C1 witness: a braceless prose reply yields the stage defaults, even
when the decoder would always raise. -/
theorem parse_total_fallback_witness :
    parseAddress (fun _ => .error "Expecting value: line 1 column 1")
        "10 Downing Street".toList "I cannot help with that".toList =
      addressDefaultNoJson "10 Downing Street".toList ∧
    parsePropertyDetails (fun _ => .error "Expecting value: line 1 column 1")
        "I cannot help with that".toList = propertyDetailsDefault := by
  exact (parse_total_with_deterministic_fallback
    (fun _ => .error "Expecting value: line 1 column 1")
    "10 Downing Street".toList "I cannot help with that".toList).1 (by decide)

/-- C9: on a message containing an opening and a closing brace, the
extraction takes exactly the substring from the first opening delimiter
to the last closing delimiter (inclusive), and a successful decode of
that substring is returned instead of the default payload. -/
theorem extraction_first_open_last_close (msg : List Char) (i j : Nat)
    (hf : pyFind '{' msg = some i) (hr : pyRfind '}' msg = some j) :
    (msg.get? i = some '{' ∧ ∀ k, k < i → msg.get? k ≠ some '{') ∧
    (msg.get? j = some '}' ∧ ∀ k, j < k → msg.get? k ≠ some '}') ∧
    extractBraces msg = (msg.take (j + 1)).drop i ∧
    (∀ decode address v, decode (extractBraces msg) = .ok v →
      parseAddress decode address msg = v) := by
  refine ⟨pyFind_spec hf, pyRfind_spec hr, ?_, ?_⟩
  · unfold extractBraces
    rw [hf, hr]
    rfl
  · intro decode address v hd
    unfold parseAddress
    rw [show hasBracePair msg = true by unfold hasBracePair; rw [hf, hr]; rfl, hd]
    simp

/-- C9 witness: extraction and decode on a concrete message with prose on
both sides of the embedded object. -/
theorem extraction_first_open_last_close_witness :
    extractBraces "ab\x7bcd\x7de".toList = "\x7bcd\x7d".toList ∧
    parseAddress (fun _ => .ok (JVal.jnum 7)) [] "ab\x7bcd\x7de".toList =
      JVal.jnum 7 := by
  have h := extraction_first_open_last_close "ab\x7bcd\x7de".toList 2 5
    (by decide) (by decide)
  exact ⟨by rw [h.2.2.1]; decide, h.2.2.2 _ [] _ rfl⟩

theorem callLoop_attempts_le (outcomes : Nat → ApiOutcome) :
    ∀ remaining idx, (callLoop outcomes idx remaining).attempts ≤ remaining + 1 ∧
      (callLoop outcomes idx remaining).sleeps ≤ remaining := by
  intro remaining
  induction remaining with
  | zero =>
    intro idx
    unfold callLoop
    cases outcomes idx <;> simp
  | succ r ih =>
    intro idx
    unfold callLoop
    cases outcomes idx <;> simp
    · exact ⟨(ih (idx + 1)).1, (ih (idx + 1)).2⟩
    · exact ⟨(ih (idx + 1)).1, (ih (idx + 1)).2⟩

theorem legacyLoop_attempts_le (outcomes : Nat → LegacyOutcome) :
    ∀ remaining idx, (legacyLoop outcomes idx remaining).attempts ≤ remaining ∧
      (legacyLoop outcomes idx remaining).sleeps ≤ remaining := by
  intro remaining
  induction remaining with
  | zero => intro idx; unfold legacyLoop; simp
  | succ r ih =>
    intro idx
    unfold legacyLoop
    cases outcomes idx
    · simp
    · simpa using ⟨(ih (idx + 1)).1, (ih (idx + 1)).2⟩
    · dsimp only
      split
      · simp
      · simpa using ⟨(ih (idx + 1)).1, (ih (idx + 1)).2⟩
    · dsimp only
      split
      · simp
      · simpa using ⟨(ih (idx + 1)).1, (ih (idx + 1)).2⟩

/-- C3: the number of retries never exceeds the configured maximum — the
improved executor makes at most `maxRetries + 1` attempts (and the legacy
executor at most `maxRetries` attempts), so total attempts are bounded;
an error outside the rate-limit/API-error classes (the source's fatal
class) is propagated after exactly one attempt with no retry and no
sleep; and with no client/credential configured the call fails fast with
no API attempt and no sleep at all. -/
theorem retry_bounds_and_fatal_single_attempt (clientOk : Bool)
    (outcomes : Nat → ApiOutcome) (maxRetries : Nat) (apiKey : Bool)
    (loutcomes : Nat → LegacyOutcome) (lmax : Nat) :
    ((callOpenaiApi clientOk outcomes maxRetries).attempts ≤ maxRetries + 1 ∧
      (callOpenaiApi clientOk outcomes maxRetries).sleeps ≤ maxRetries) ∧
    (clientOk = false →
      callOpenaiApi clientOk outcomes maxRetries = ⟨.error .clientNotInit, 0, 0⟩) ∧
    (∀ m, clientOk = true → outcomes 0 = .other m →
      callOpenaiApi clientOk outcomes maxRetries =
        ⟨.error (.unexpected m), 1, 0⟩) ∧
    ((legacyCallOpenaiApi apiKey loutcomes lmax).attempts ≤ lmax) ∧
    (apiKey = false →
      legacyCallOpenaiApi apiKey loutcomes lmax = ⟨.error .authMissing, 0, 0⟩) := by
  refine ⟨?_, ?_, ?_, ?_, ?_⟩
  · unfold callOpenaiApi
    cases clientOk
    · simp
    · simpa using callLoop_attempts_le outcomes maxRetries 0
  · intro h; subst h; rfl
  · intro m h hm
    subst h
    unfold callOpenaiApi callLoop
    rw [hm]
    cases maxRetries <;> rfl
  · unfold legacyCallOpenaiApi
    cases apiKey
    · simp
    · simpa using (legacyLoop_attempts_le loutcomes lmax 0).1
  · intro h; subst h; rfl

/-- C3 witness: concrete fail-fast and single-attempt runs, plus the
bound at a concrete retry budget. -/
theorem retry_bounds_witness :
    callOpenaiApi false (fun _ => .rateLimited) 5 =
      ⟨.error .clientNotInit, 0, 0⟩ ∧
    callOpenaiApi true (fun _ => .other "Unexpected error") 5 =
      ⟨.error (.unexpected "Unexpected error"), 1, 0⟩ ∧
    (callOpenaiApi true (fun _ => .rateLimited) 5).attempts ≤ 6 := by
  have h := retry_bounds_and_fatal_single_attempt false
    (fun _ => .rateLimited) 5 true (fun _ => .http429) 3
  have h2 := retry_bounds_and_fatal_single_attempt true
    (fun _ => .other "Unexpected error") 5 true (fun _ => .http429) 3
  have h3 := retry_bounds_and_fatal_single_attempt true
    (fun _ => .rateLimited) 5 true (fun _ => .http429) 3
  exact ⟨h.2.1 rfl, h2.2.2.1 "Unexpected error" rfl rfl, h3.1.1⟩

/-- C6 counterexample: `retry_report` performs no status check — called
on a job whose status is `complete` (not `error`), it succeeds and
overwrites the record with a fresh processing one, instead of failing
with an invalid-state error and leaving the job unchanged. -/
theorem retry_allowed_on_completed_job :
    demoCompletedJob.status = "complete" ∧
    (retryReport demoStore "r1").1 = .restarted "r1" ∧
    storeGet (retryReport demoStore "r1").2 "r1" =
      some (retryInitialJob "221B Baker Street, London NW1 6XE") ∧
    (storeGet (retryReport demoStore "r1").2 "r1").map JobRec.status =
      some "processing" := by
  refine ⟨rfl, rfl, rfl, rfl⟩

/-- C6 amended: `retry_report` fails only for an unknown id or a record
with an empty address; on any known job with a non-empty address —
whatever its current status — it re-creates a fresh job starting from the
initial processing state, discarding the prior error.  In particular a
job in `error` is restarted as the original claim says, but a job in any
other status is restarted too rather than rejected. -/
theorem retry_resets_any_known_job (store : JobStore) (reportId : String) :
    (storeGet store reportId = none →
      retryReport store reportId = (.notFound, store)) ∧
    (∀ r, storeGet store reportId = some r → r.address ≠ "" →
      retryReport store reportId =
        (.restarted reportId,
          storeSet store reportId (retryInitialJob r.address)) ∧
      (retryInitialJob r.address).status = "processing" ∧
      (retryInitialJob r.address).progress = 0 ∧
      (retryInitialJob r.address).errorDetails = none) := by
  constructor
  · intro h
    unfold retryReport
    rw [h]
  · intro r h ha
    unfold retryReport
    rw [h]
    refine ⟨?_, rfl, rfl, rfl⟩
    dsimp only
    rw [if_neg ha]

/-- C6 amended witness: a job that previously failed is restarted fresh. -/
theorem retry_resets_witness :
    retryReport demoErrorStore "e1" =
      (.restarted "e1",
        storeSet demoErrorStore "e1"
          (retryInitialJob "1 High Street, Exampletown EX1 2AB")) ∧
    demoErrorJob.status = "error" := by
  refine ⟨?_, rfl⟩
  exact ((retry_resets_any_known_job demoErrorStore "e1").2 demoErrorJob rfl
    (by decide)).1

/-- C7 counterexample: `generate_report` accepts the one-character
address "a" — far below the ten-character minimum the address validator
uses — and creates a job for it, instead of failing with invalid input
and creating no job. -/
theorem short_address_creates_job :
    ("a" : String).length < 10 ∧
    generateReport true [] "job-1" "a" =
      (.started "job-1", [("job-1", initialJob "a")]) := by
  refine ⟨by decide, rfl⟩

/-- C7 amended: submission rejects synchronously (with no job created)
exactly the empty address and the missing-API-key configuration; any
non-empty address, however short, creates a job in the initial
processing state and returns its id without running the pipeline. -/
theorem submit_rejects_only_empty_address (apiKey : Bool) (store : JobStore)
    (newId address : String) :
    (address = "" → generateReport apiKey store newId address =
      (.missingAddress, store)) ∧
    (address ≠ "" → apiKey = false →
      generateReport apiKey store newId address = (.missingApiKey, store)) ∧
    (address ≠ "" → apiKey = true →
      generateReport apiKey store newId address =
        (.started newId, storeSet store newId (initialJob address)) ∧
      (initialJob address).status = "processing" ∧
      (initialJob address).progress = 0) := by
  refine ⟨?_, ?_, ?_⟩
  · intro h
    unfold generateReport
    rw [if_pos h]
  · intro h hk
    subst hk
    unfold generateReport
    rw [if_neg h]
    rfl
  · intro h hk
    subst hk
    unfold generateReport
    rw [if_neg h]
    exact ⟨rfl, rfl, rfl⟩

/-- C7 amended witness: the empty submission fails with no job created,
and a valid full address is accepted immediately. -/
theorem submit_rejects_witness :
    generateReport true [] "job-2" "" = (.missingAddress, []) ∧
    generateReport true [] "job-3" "10 Downing Street, London, SW1A 2AA" =
      (.started "job-3",
        [("job-3", initialJob "10 Downing Street, London, SW1A 2AA")]) := by
  constructor
  · exact (submit_rejects_only_empty_address true [] "job-2" "").1 rfl
  · exact ((submit_rejects_only_empty_address true [] "job-3"
      "10 Downing Street, London, SW1A 2AA").2.2 (by decide) rfl).1

/-- C2: stages execute strictly in the fixed order research →
evaluation → accessor (review) → report generation — the invoked agents
always form a prefix of that order — and on the first failure the run
stops: the terminal record is an `error` one naming the last (failing)
executed agent, and carries no result payload from any stage. -/
theorem pipeline_order_and_stops_on_first_failure (fns : AgentFns)
    (address : String) :
    (∃ k, (processReport fns address).executed = stageNames.take k) ∧
    (∃ last, ((processReport fns address).trace).getLast? = some last ∧
      ((pipelineOk fns address = true ∧ last.status = "complete" ∧
          (processReport fns address).executed = stageNames) ∨
        (pipelineOk fns address = false ∧ last.status = "error" ∧
          last.html = none ∧ last.content = none ∧ last.data = none ∧
          ∃ failName e,
            ((processReport fns address).executed).getLast? = some failName ∧
            last.errorDetails = some ⟨e, some failName⟩))) := by
  rcases hr : fns.research address with e | pd
  · simp only [processReport, pipelineOk, hr]
    exact ⟨⟨1, by trivial⟩, _, by trivial,
      Or.inr ⟨by trivial, by trivial, by trivial, by trivial, by trivial,
        "research", e, by trivial, by trivial⟩⟩
  · rcases he : fns.evaluation pd with e | ev
    · simp only [processReport, pipelineOk, hr, he]
      exact ⟨⟨2, by trivial⟩, _, by trivial,
        Or.inr ⟨by trivial, by trivial, by trivial, by trivial, by trivial,
          "evaluation", e, by trivial, by trivial⟩⟩
    · rcases ha : fns.accessor address pd ev with e | ap
      · simp only [processReport, pipelineOk, hr, he, ha]
        exact ⟨⟨3, by trivial⟩, _, by trivial,
          Or.inr ⟨by trivial, by trivial, by trivial, by trivial, by trivial,
            "accessor", e, by trivial, by trivial⟩⟩
      · rcases hg : fns.reportGen ap with e | rr
        · simp only [processReport, pipelineOk, hr, he, ha, hg]
          exact ⟨⟨4, by trivial⟩, _, by trivial,
            Or.inr ⟨by trivial, by trivial, by trivial, by trivial, by trivial,
              "report_generator", e, by trivial, by trivial⟩⟩
        · simp only [processReport, pipelineOk, hr, he, ha, hg]
          exact ⟨⟨4, by trivial⟩, _, by trivial,
            Or.inl ⟨by trivial, by trivial, by trivial⟩⟩


theorem stableOfNontermInit (l : List JobRec)
    (h : ∀ i s, l.get? i = some s → i + 1 < l.length → isTerminal s = false) :
    ∀ i j si sj, i ≤ j → l.get? i = some si → l.get? j = some sj →
      isTerminal si = true → sj = si := by
  intro i j si sj hij hi hj hterm
  have hilen : i < l.length := by
    by_contra hc
    rw [List.get?_eq_none.mpr (by omega)] at hi
    exact Option.noConfusion hi
  have hjlen : j < l.length := by
    by_contra hc
    rw [List.get?_eq_none.mpr (by omega)] at hj
    exact Option.noConfusion hj
  have h1 : ¬(i + 1 < l.length) := by
    intro hc
    rw [h i si hi hc] at hterm
    exact Bool.false_ne_true hterm
  obtain rfl : i = j := by omega
  rw [hi] at hj
  injection hj with hj
  exact hj.symm

/-- C4: the job record of a run never moves after reaching a terminal
status — every later observation (hence every later poll, polls being
pure reads) yields the identical record and the identical status
response — and no state of the run ever carries a result payload and an
error at the same time. -/
theorem terminal_state_stable_and_exclusive (fns : AgentFns)
    (address : String) :
    (∀ i j si sj, i ≤ j →
      ((processReport fns address).trace).get? i = some si →
      ((processReport fns address).trace).get? j = some sj →
      isTerminal si = true →
      sj = si ∧ reportStatusView sj = reportStatusView si) ∧
    (∀ i s, ((processReport fns address).trace).get? i = some s →
      ¬(hasResult s = true ∧ s.errorDetails.isSome = true)) := by
  have hnt : ∀ i s, ((processReport fns address).trace).get? i = some s →
      i + 1 < ((processReport fns address).trace).length →
      isTerminal s = false := by
    rcases hr : fns.research address with e | pd
    · simp only [processReport, hr]
      intro i s hs h1
      simp only [List.length_cons, List.length_nil] at h1
      rcases i with _ | _ | i <;>
        simp only [List.get?_cons_zero, List.get?_cons_succ,
          Option.some.injEq] at hs
      · subst hs; rfl
      · subst hs; rfl
      · omega
    · rcases he : fns.evaluation pd with e | ev
      · simp only [processReport, hr, he]
        intro i s hs h1
        simp only [List.length_cons, List.length_nil] at h1
        rcases i with _ | _ | _ | i <;>
          simp only [List.get?_cons_zero, List.get?_cons_succ,
            Option.some.injEq] at hs
        · subst hs; rfl
        · subst hs; rfl
        · subst hs; rfl
        · omega
      · rcases ha : fns.accessor address pd ev with e | ap
        · simp only [processReport, hr, he, ha]
          intro i s hs h1
          simp only [List.length_cons, List.length_nil] at h1
          rcases i with _ | _ | _ | _ | i <;>
            simp only [List.get?_cons_zero, List.get?_cons_succ,
              Option.some.injEq] at hs
          · subst hs; rfl
          · subst hs; rfl
          · subst hs; rfl
          · subst hs; rfl
          · omega
        · rcases hg : fns.reportGen ap with e | rr
          · simp only [processReport, hr, he, ha, hg]
            intro i s hs h1
            simp only [List.length_cons, List.length_nil] at h1
            rcases i with _ | _ | _ | _ | _ | i <;>
              simp only [List.get?_cons_zero, List.get?_cons_succ,
                Option.some.injEq] at hs
            · subst hs; rfl
            · subst hs; rfl
            · subst hs; rfl
            · subst hs; rfl
            · subst hs; rfl
            · omega
          · simp only [processReport, hr, he, ha, hg]
            intro i s hs h1
            simp only [List.length_cons, List.length_nil] at h1
            rcases i with _ | _ | _ | _ | _ | i <;>
              simp only [List.get?_cons_zero, List.get?_cons_succ,
                Option.some.injEq] at hs
            · subst hs; rfl
            · subst hs; rfl
            · subst hs; rfl
            · subst hs; rfl
            · subst hs; rfl
            · omega
  refine ⟨?_, ?_⟩
  · intro i j si sj hij hi hj hterm
    have hkey := stableOfNontermInit _ hnt i j si sj hij hi hj hterm
    exact ⟨hkey, by rw [hkey]⟩
  · rcases hr : fns.research address with e | pd
    · simp only [processReport, hr]
      intro i s hs
      rcases i with _ | _ | _ | i <;>
        simp only [List.get?_cons_zero, List.get?_cons_succ,
          Option.some.injEq, List.get?_nil] at hs
      · subst hs; rintro ⟨h1, h2⟩; exact Bool.false_ne_true h1
      · subst hs; rintro ⟨h1, h2⟩; exact Bool.false_ne_true h1
      · subst hs; rintro ⟨h1, h2⟩; exact Bool.false_ne_true h1
      · exact Option.noConfusion hs
    · rcases he : fns.evaluation pd with e | ev
      · simp only [processReport, hr, he]
        intro i s hs
        rcases i with _ | _ | _ | _ | i <;>
          simp only [List.get?_cons_zero, List.get?_cons_succ,
            Option.some.injEq, List.get?_nil] at hs
        · subst hs; rintro ⟨h1, h2⟩; exact Bool.false_ne_true h1
        · subst hs; rintro ⟨h1, h2⟩; exact Bool.false_ne_true h1
        · subst hs; rintro ⟨h1, h2⟩; exact Bool.false_ne_true h1
        · subst hs; rintro ⟨h1, h2⟩; exact Bool.false_ne_true h1
        · exact Option.noConfusion hs
      · rcases ha : fns.accessor address pd ev with e | ap
        · simp only [processReport, hr, he, ha]
          intro i s hs
          rcases i with _ | _ | _ | _ | _ | i <;>
            simp only [List.get?_cons_zero, List.get?_cons_succ,
              Option.some.injEq, List.get?_nil] at hs
          · subst hs; rintro ⟨h1, h2⟩; exact Bool.false_ne_true h1
          · subst hs; rintro ⟨h1, h2⟩; exact Bool.false_ne_true h1
          · subst hs; rintro ⟨h1, h2⟩; exact Bool.false_ne_true h1
          · subst hs; rintro ⟨h1, h2⟩; exact Bool.false_ne_true h1
          · subst hs; rintro ⟨h1, h2⟩; exact Bool.false_ne_true h1
          · exact Option.noConfusion hs
        · rcases hg : fns.reportGen ap with e | rr
          · simp only [processReport, hr, he, ha, hg]
            intro i s hs
            rcases i with _ | _ | _ | _ | _ | _ | i <;>
              simp only [List.get?_cons_zero, List.get?_cons_succ,
                Option.some.injEq, List.get?_nil] at hs
            · subst hs; rintro ⟨h1, h2⟩; exact Bool.false_ne_true h1
            · subst hs; rintro ⟨h1, h2⟩; exact Bool.false_ne_true h1
            · subst hs; rintro ⟨h1, h2⟩; exact Bool.false_ne_true h1
            · subst hs; rintro ⟨h1, h2⟩; exact Bool.false_ne_true h1
            · subst hs; rintro ⟨h1, h2⟩; exact Bool.false_ne_true h1
            · subst hs; rintro ⟨h1, h2⟩; exact Bool.false_ne_true h1
            · exact Option.noConfusion hs
          · simp only [processReport, hr, he, ha, hg]
            intro i s hs
            rcases i with _ | _ | _ | _ | _ | _ | i <;>
              simp only [List.get?_cons_zero, List.get?_cons_succ,
                Option.some.injEq, List.get?_nil] at hs
            · subst hs; rintro ⟨h1, h2⟩; exact Bool.false_ne_true h1
            · subst hs; rintro ⟨h1, h2⟩; exact Bool.false_ne_true h1
            · subst hs; rintro ⟨h1, h2⟩; exact Bool.false_ne_true h1
            · subst hs; rintro ⟨h1, h2⟩; exact Bool.false_ne_true h1
            · subst hs; rintro ⟨h1, h2⟩; exact Bool.false_ne_true h1
            · subst hs; rintro ⟨h1, h2⟩; exact Bool.false_ne_true h2
            · exact Option.noConfusion hs

/-- C4 witness: at the terminal index of a concrete failed run, the
record is stable and holds an error without a result. -/
theorem terminal_stable_witness :
    isTerminal demoErrorJob = true ∧
    (demoErrorJob = demoErrorJob ∧
      reportStatusView demoErrorJob = reportStatusView demoErrorJob) ∧
    ¬(hasResult demoErrorJob = true ∧ demoErrorJob.errorDetails.isSome = true) := by
  refine ⟨rfl, ?_, ?_⟩
  · exact (terminal_state_stable_and_exclusive demoFnsBoom
      "1 High Street, Exampletown EX1 2AB").1 2 2 demoErrorJob demoErrorJob
      (le_refl 2) rfl rfl rfl
  · exact (terminal_state_stable_and_exclusive demoFnsBoom
      "1 High Street, Exampletown EX1 2AB").2 2 demoErrorJob rfl

/-- C5: along any run's sequence of job-record states, the `progress`
field is non-decreasing and never exceeds 100. -/
theorem progress_monotone_bounded (fns : AgentFns) (address : String) :
    List.Chain' (· ≤ ·)
      (((processReport fns address).trace).map JobRec.progress) ∧
    (∀ p ∈ ((processReport fns address).trace).map JobRec.progress,
      p ≤ 100) := by
  rcases hr : fns.research address with e | pd
  · simp only [processReport, hr]
    constructor
    · show List.Chain' (· ≤ ·) ([0, 10, 10] : List Nat)
      norm_num [List.chain'_cons]
    · show ∀ p ∈ ([0, 10, 10] : List Nat), p ≤ 100
      decide
  · rcases he : fns.evaluation pd with e | ev
    · simp only [processReport, hr, he]
      constructor
      · show List.Chain' (· ≤ ·) ([0, 10, 30, 30] : List Nat)
        norm_num [List.chain'_cons]
      · show ∀ p ∈ ([0, 10, 30, 30] : List Nat), p ≤ 100
        decide
    · rcases ha : fns.accessor address pd ev with e | ap
      · simp only [processReport, hr, he, ha]
        constructor
        · show List.Chain' (· ≤ ·) ([0, 10, 30, 50, 50] : List Nat)
          norm_num [List.chain'_cons]
        · show ∀ p ∈ ([0, 10, 30, 50, 50] : List Nat), p ≤ 100
          decide
      · rcases hg : fns.reportGen ap with e | rr
        · simp only [processReport, hr, he, ha, hg]
          constructor
          · show List.Chain' (· ≤ ·) ([0, 10, 30, 50, 70, 70] : List Nat)
            norm_num [List.chain'_cons]
          · show ∀ p ∈ ([0, 10, 30, 50, 70, 70] : List Nat), p ≤ 100
            decide
        · simp only [processReport, hr, he, ha, hg]
          constructor
          · show List.Chain' (· ≤ ·) ([0, 10, 30, 50, 70, 100] : List Nat)
            norm_num [List.chain'_cons]
          · show ∀ p ∈ ([0, 10, 30, 50, 70, 100] : List Nat), p ≤ 100
            decide

/-- C5 witness: in a concrete successful run, the observed progress
values include 100 and respect the bound. -/
theorem progress_bounded_witness :
    (100 : Nat) ∈
      ((processReport demoFnsOk "10 Downing Street").trace).map
        JobRec.progress ∧ (100 : Nat) ≤ 100 :=
  ⟨by decide, (progress_monotone_bounded demoFnsOk "10 Downing Street").2 100
    (by decide)⟩

/-- C8: the background runner converts every escaping stage exception
into an `error` record (with the error details and failing agent
recorded) and otherwise finishes `complete` — it always produces a
terminal record and never lets a fault propagate. -/
theorem background_faults_become_error_records (fns : AgentFns)
    (address : String) :
    ∃ last, ((processReport fns address).trace).getLast? = some last ∧
      ((pipelineOk fns address = true ∧ last.status = "complete") ∨
        (pipelineOk fns address = false ∧ last.status = "error" ∧
          last.errorDetails.isSome = true ∧
          last.adErrorAgent.isSome = true)) := by
  rcases hr : fns.research address with e | pd
  · simp only [processReport, pipelineOk, hr]
    exact ⟨_, by trivial, Or.inr ⟨by trivial, by trivial, by trivial, by trivial⟩⟩
  · rcases he : fns.evaluation pd with e | ev
    · simp only [processReport, pipelineOk, hr, he]
      exact ⟨_, by trivial, Or.inr ⟨by trivial, by trivial, by trivial, by trivial⟩⟩
    · rcases ha : fns.accessor address pd ev with e | ap
      · simp only [processReport, pipelineOk, hr, he, ha]
        exact ⟨_, by trivial, Or.inr ⟨by trivial, by trivial, by trivial, by trivial⟩⟩
      · rcases hg : fns.reportGen ap with e | rr
        · simp only [processReport, pipelineOk, hr, he, ha, hg]
          exact ⟨_, by trivial, Or.inr ⟨by trivial, by trivial, by trivial, by trivial⟩⟩
        · simp only [processReport, pipelineOk, hr, he, ha, hg]
          exact ⟨_, by trivial, Or.inl ⟨by trivial, by trivial⟩⟩
